import Mathlib

/-!
Shallow embedding of the libROM core described by the available sources:
`Matrix.h` (a dense, optionally row-distributed matrix) and the `StaticSVD`
header.  Real values are modelled as rationals so that every definition is
executable and exact; rounding of machine doubles is out of scope.  A fatal
`CAROM_ASSERT` precondition failure is modelled as the `none` result of an
`Option`-valued operation; the `some` branch is the behaviour of a run in
which every assertion passed.
-/

namespace CAROM

/-- `CAROM::Matrix` from `Matrix.h`: row-major per-process storage `d_mat`,
per-process row count `d_num_rows`, global column count `d_num_cols`, and
the row-distribution flag `d_distributed`. -/
structure Matrix where
  d_num_rows : Nat
  d_num_cols : Nat
  d_distributed : Bool
  d_mat : List ℚ
deriving DecidableEq

/-- `Matrix::distributed()` (`Matrix.h`): returns `d_distributed`. -/
def Matrix.distributed (A : Matrix) : Bool := A.d_distributed

/-- `Matrix::numRows()` (`Matrix.h`): returns `d_num_rows`. -/
def Matrix.numRows (A : Matrix) : Nat := A.d_num_rows

/-- `Matrix::numColumns()` (`Matrix.h`): returns `d_num_cols`. -/
def Matrix.numColumns (A : Matrix) : Nat := A.d_num_cols

/-- The §3 storage invariant: storage length equals
`numRows() * numColumns()`. -/
abbrev Matrix.wf (A : Matrix) : Prop :=
  A.d_mat.length = A.d_num_rows * A.d_num_cols

/-- Const `Matrix::item(row, col)` (`Matrix.h`): reads
`d_mat[row*d_num_cols+col]`.  The `CAROM_ASSERT` bounds checks of the
source appear as validity hypotheses in the theorems below. -/
def Matrix.item (A : Matrix) (row col : Nat) : ℚ :=
  A.d_mat.getD (row * A.d_num_cols + col) 0

/-- Non-const `Matrix::item(row, col)` used as an lvalue
(`mat.item(i, j) = val`): writes `d_mat[row*d_num_cols+col]`. -/
def Matrix.setItem (A : Matrix) (row col : Nat) (v : ℚ) : Matrix :=
  { A with d_mat := A.d_mat.set (row * A.d_num_cols + col) v }

/-- The `CAROM::Vector` collaborator, to the depth the `Matrix.h` contract
requires (§4.2): dimension, distribution flag, owned storage. -/
structure Vector where
  d_dim : Nat
  d_distributed : Bool
  d_vec : List ℚ
deriving DecidableEq

/-- `Vector::dim()`. -/
def Vector.dim (v : Vector) : Nat := v.d_dim

/-- `Vector::distributed()`. -/
def Vector.distributed (v : Vector) : Bool := v.d_distributed

/-- `Vector` element read. -/
def Vector.item (v : Vector) (i : Nat) : ℚ := v.d_vec.getD i 0

/-- Sum of `f 0 + f 1 + ... + f (n-1)`, the contraction loop of the dense
products. -/
def dotRange (f : Nat → ℚ) (n : Nat) : ℚ := ((List.range n).map f).sum

/-- Row-major matrix built from an entry function: storage cell
`i = r*cols + c` holds `f r c`. -/
def Matrix.ofEntries (rows cols : Nat) (dist : Bool) (f : Nat → Nat → ℚ) :
    Matrix :=
  ⟨rows, cols, dist, (List.range (rows * cols)).map (fun i => f (i / cols) (i % cols))⟩

/-- Entry `(r, c)` of the product `A · B`: contraction over `numColumns()`
of the left operand. -/
def multEntry (A B : Matrix) (r c : Nat) : ℚ :=
  dotRange (fun j => A.item r j * B.item j c) A.d_num_cols

/-- Modelled from the spec: the body of `Matrix::mult(const Matrix&)` lives
in `Matrix.C`, which is not among the available sources.  Preconditions are
the `@pre` lines of `Matrix.h` (`!other.distributed()`,
`numColumns() == other.numRows()`); per the §4.1 table the result has the
distribution flag of `this` and shape `numRows() × other.numColumns()` with
entries `A · B`.  A failed precondition is the fatal `CAROM_ASSERT`,
modelled as `none`. -/
def Matrix.mult (A B : Matrix) : Option Matrix :=
  if B.d_distributed = false ∧ A.d_num_cols = B.d_num_rows then
    some (Matrix.ofEntries A.d_num_rows B.d_num_cols A.d_distributed (multEntry A B))
  else none

/-- Entry `r` of the local partial contraction of `Aᵗ · B` over this
process's row partition. -/
def transposeMultEntry (A B : Matrix) (r c : Nat) : ℚ :=
  dotRange (fun i => A.item i r * B.item i c) A.d_num_rows

/-- Modelled from the spec: the body of
`Matrix::transposeMult(const Matrix&)` lives in `Matrix.C`, not among the
available sources.  Preconditions are the `@pre` lines of `Matrix.h`
(`distributed() == other.distributed()`, `numRows() == other.numRows()`).
The returned matrix is undistributed of shape
`numColumns() × other.numColumns()`; its entries are this process's local
partial contraction (§4.1).  For undistributed operands this is the final
result; when both operands are distributed the routine follows the local
contraction with a collective sum-reduction across processes, which is the
world-level `transposeMultSPMD` below. -/
def Matrix.transposeMult (A B : Matrix) : Option Matrix :=
  if A.d_distributed = B.d_distributed ∧ A.d_num_rows = B.d_num_rows then
    some (Matrix.ofEntries A.d_num_cols B.d_num_cols false (transposeMultEntry A B))
  else none

/-- Modelled from the spec: body of `Matrix::mult(const Vector&)` is in
`Matrix.C`, missing.  Preconditions per `Matrix.h`:
`distributed() && !other.distributed()`, `numColumns() == other.dim()`;
result is a distributed Vector of this process's `numRows()` entries
(§4.1, no cross-process communication). -/
def Matrix.multVec (A : Matrix) (v : Vector) : Option Vector :=
  if A.d_distributed = true ∧ v.d_distributed = false ∧ A.d_num_cols = v.d_dim then
    some ⟨A.d_num_rows, true,
      (List.range A.d_num_rows).map (fun r => dotRange (fun j => A.item r j * v.item j) A.d_num_cols)⟩
  else none

/-- Modelled from the spec: body of `Matrix::transposeMult(const Vector&)`
is in `Matrix.C`, missing.  Preconditions per `Matrix.h`:
`distributed() && other.distributed()`, `numRows() == other.dim()`; the
result is an undistributed Vector of `numColumns()` entries holding the
local partial contraction, summed across processes by the collective
reduction (§4.1). -/
def Matrix.transposeMultVec (A : Matrix) (v : Vector) : Option Vector :=
  if A.d_distributed = true ∧ v.d_distributed = true ∧ A.d_num_rows = v.d_dim then
    some ⟨A.d_num_cols, false,
      (List.range A.d_num_cols).map (fun r => dotRange (fun i => A.item i r * v.item i) A.d_num_rows)⟩
  else none

/-- `Matrix::mult(const Matrix* other)` (`Matrix.h`, body in the header):
asserts `other != 0`, `!other->distributed()`,
`numColumns() == other->numRows()`, then returns `mult(*other)`.  A null
argument or failed assertion is the fatal `CAROM_ASSERT`, modelled as
`none`. -/
def Matrix.multPtr (A : Matrix) (other : Option Matrix) : Option Matrix :=
  match other with
  | none => none
  | some B =>
    if B.distributed = false ∧ A.numColumns = B.numRows then A.mult B else none

/-- `Matrix::mult(const Vector* other)` (`Matrix.h`, body in the header):
asserts `other != 0`, `distributed() && !other->distributed()`,
`numColumns() == other->dim()`, then returns `mult(*other)`. -/
def Matrix.multVecPtr (A : Matrix) (other : Option Vector) : Option Vector :=
  match other with
  | none => none
  | some v =>
    if A.distributed = true ∧ v.distributed = false ∧ A.numColumns = v.dim then
      A.multVec v
    else none

/-- `Matrix::transposeMult(const Matrix* other)` (`Matrix.h`, body in the
header): asserts `other != 0`, `distributed() == other->distributed()`,
`numRows() == other->numRows()`, then returns `transposeMult(*other)`. -/
def Matrix.transposeMultPtr (A : Matrix) (other : Option Matrix) : Option Matrix :=
  match other with
  | none => none
  | some B =>
    if A.distributed = B.distributed ∧ A.numRows = B.numRows then
      A.transposeMult B
    else none

/-- `Matrix::transposeMult(const Vector* other)` (`Matrix.h`, body in the
header): asserts `other != 0`, `distributed() && other->distributed()`,
`numRows() == other->dim()`, then returns `transposeMult(*other)`. -/
def Matrix.transposeMultVecPtr (A : Matrix) (other : Option Vector) : Option Vector :=
  match other with
  | none => none
  | some v =>
    if A.distributed = true ∧ v.distributed = true ∧ A.numRows = v.dim then
      A.transposeMultVec v
    else none

/-- Vertical concatenation of per-process row partitions into one global
undistributed matrix, ranks in process-id order; with row-major storage
this is concatenation of the per-process storage blocks (§4.3 gather
layout). -/
def stackRows (ms : List Matrix) (cols : Nat) : Matrix :=
  ⟨(ms.map Matrix.d_num_rows).sum, cols, false, (ms.map Matrix.d_mat).flatten⟩

/-- Modelled from the spec: the collective sum-reduction completing
`transposeMult` when both operands are distributed (§4.1) — each process
computes its local partial contraction and the reduction adds the partials
of all processes; every process returns this same undistributed `cA × cB`
matrix.  `pairs` lists the per-process local operand partitions in rank
order. -/
def transposeMultSPMD (cA cB : Nat) (pairs : List (Matrix × Matrix)) : Matrix :=
  Matrix.ofEntries cA cB false
    (fun r c => (pairs.map (fun p => transposeMultEntry p.1 p.2 r c)).sum)

/-- The zero-size placeholder used only as the default value of total
store lookups below; it is not produced by any public constructor. -/
def mat0 : Matrix := ⟨0, 0, false, []⟩

/-- Modelled from the spec: the body of
`Matrix::Matrix(int num_rows, int num_cols, bool distributed)` is in
`Matrix.C`, missing.  `@pre num_rows > 0`, `@pre num_cols > 0`
(`Matrix.h`); a violated precondition is the fatal assert, modelled as
`none`.  The uninitialized entries are modelled as zeros. -/
def Matrix.make (num_rows num_cols : Nat) (dist : Bool) : Option Matrix :=
  if 0 < num_rows ∧ 0 < num_cols then
    some ⟨num_rows, num_cols, dist, List.replicate (num_rows * num_cols) 0⟩
  else none

/-- Modelled from the spec: the body of
`Matrix::Matrix(const double* mat, ...)` is in `Matrix.C`, missing.  It
copies `num_rows*num_cols` doubles out of `mat`; `@pre mat != 0`,
`@pre num_rows > 0`, `@pre num_cols > 0` (`Matrix.h`). -/
def Matrix.makeFrom (mat : Option (List ℚ)) (num_rows num_cols : Nat)
    (dist : Bool) : Option Matrix :=
  match mat with
  | none => none
  | some m =>
    if 0 < num_rows ∧ 0 < num_cols then
      some ⟨num_rows, num_cols, dist,
        (List.range (num_rows * num_cols)).map (fun i => m.getD i 0)⟩
    else none

/-- A heap of live `Matrix` instances; a handle is an index into the
store.  Distinct handles are distinct C++ objects, each owning its own
`d_mat` buffer. -/
abbrev MatrixStore := List Matrix

/-- Modelled from the spec: `Matrix::Matrix(const Matrix&)` (declared in
`Matrix.h`, body in `Matrix.C`, missing); §3: "copy and assignment perform
deep duplication of storage (no aliasing between distinct Matrix
instances)" — allocates a fresh instance whose fields equal the
source's. -/
def copyConstruct (σ : MatrixStore) (src : Nat) : Nat × MatrixStore :=
  (σ.length, σ ++ [σ.getD src mat0])

/-- Modelled from the spec: `Matrix::operator=` (declared in `Matrix.h`,
body missing): deep-copies the fields of `rhs` into the existing
instance. -/
def assign (σ : MatrixStore) (dst src : Nat) : MatrixStore :=
  σ.set dst (σ.getD src mat0)

/-- An item write performed through the handle `h` — the only mutation
path the class exposes. -/
def writeItem (σ : MatrixStore) (h r c : Nat) (v : ℚ) : MatrixStore :=
  σ.set h ((σ.getD h mat0).setItem r c v)

/-- `CAROM::StaticSVD` from the `StaticSVD` header: the sample buffers
collected so far (`d_samples`), the replicated right-singular-vector
matrix `d_V`, the staleness flag `d_this_interval_basis_current`, the
process rank `d_rank` and process count `d_num_procs` (queried once at
construction), plus the members inherited from the `SVD` base class (its
header is not among the available sources; per §3 these are the local
dimension `d_dim`, the capacity `d_samples_per_time_interval`, the cached
spatial basis `d_basis` and singular values `d_S`). -/
structure StaticSVD where
  d_dim : Nat
  d_samples_per_time_interval : Nat
  d_samples : List (List ℚ)
  d_basis : Option Matrix
  d_S : Option Matrix
  d_V : Option Matrix
  d_this_interval_basis_current : Bool
  d_rank : Nat
  d_num_procs : Nat
deriving DecidableEq

/-- `StaticSVD::thisIntervalBasisCurrent()` (body in the header): returns
`d_this_interval_basis_current`. -/
def StaticSVD.thisIntervalBasisCurrent (s : StaticSVD) : Bool :=
  s.d_this_interval_basis_current

/-- Modelled from the spec: the `StaticSVD` constructor body is not among
the available sources.  `@pre dim > 0`, `@pre samples_per_time_interval
> 0` (fatal asserts, `none`); rank and process count are queried once from
the message-passing runtime and fixed; initially there are no samples, no
cached outputs, and the basis is not current (state STALE). -/
def mkStaticSVD (dim samples_per_time_interval : Nat) (debug_algorithm : Bool)
    (rank num_procs : Nat) : Option StaticSVD :=
  if 0 < dim ∧ 0 < samples_per_time_interval then
    some ⟨dim, samples_per_time_interval, [], none, none, none, false, rank, num_procs⟩
  else none

/-- Modelled from the spec: the body of `StaticSVD::takeSample` is not
among the available sources.  `@pre u_in != 0`, `@pre time >= 0.0` (fatal
asserts, `none`); per §4.3 it appends a reference to `u_in` to the sample
set unless the accumulated count has reached
`samples_per_time_interval`, in which case it returns false leaving the
stored state unchanged; acceptance marks the basis stale and returns
true.  `add_without_increase` selects the linearly-dependent fold-in whose
numerical treatment is the §9 open question; it does not alter the
bookkeeping modelled here. -/
def StaticSVD.takeSample (s : StaticSVD) (u_in : Option (List ℚ)) (time : ℚ)
    (add_without_increase : Bool) : Option (Bool × StaticSVD) :=
  match u_in with
  | none => none
  | some u =>
    if time < 0 then none
    else if s.d_samples_per_time_interval ≤ s.d_samples.length then
      some (false, s)
    else
      some (true, { s with d_this_interval_basis_current := false, d_samples := s.d_samples ++ [u] })

/-- The output of the external dense SVD solver (§6): left singular
vectors `U`, singular values `S`, right singular vectors `V` (that is,
`Vᵗ` row-indexed by singular value). -/
structure SvdSolution where
  U : Matrix
  S : List ℚ
  V : Matrix
deriving DecidableEq

/-- The §4.3 solver contract at an input of shape
`total_dim × num_samples` with `k = min(total_dim, num_samples)`: `U` is
`total_dim × k`, `Σ` has length `k` ordered descending, `Vᵗ` is
`k × num_samples`. -/
abbrev solverShapeOK (out : SvdSolution) (total_dim num_samples : Nat) : Prop :=
  out.U.d_num_rows = total_dim ∧
  out.U.d_num_cols = min total_dim num_samples ∧
  out.U.wf ∧
  out.S.length = min total_dim num_samples ∧
  out.S.Pairwise (· ≥ ·) ∧
  out.V.d_num_rows = min total_dim num_samples ∧
  out.V.d_num_cols = num_samples ∧
  out.V.wf

/-- One process's local sample matrix: `dim × (number of samples)`, column
`j` holding sample `j`. -/
def sampleMat (dim : Nat) (samples : List (List ℚ)) : Matrix :=
  Matrix.ofEntries dim samples.length false
    (fun i j => (samples.getD j []).getD i 0)

/-- The common sample count of a lockstep world (every rank has taken the
same number of samples). -/
def numSamples (w : List (List (List ℚ))) : Nat := (w.getD 0 []).length

/-- Modelled from the spec: the all-gather of `computeSVD` — `dims` lists
every rank's local `dim` and `w` every rank's `d_samples`, ranks in
process-id order; the gathered matrix is `total_dim × num_samples` with
rank `p`'s block occupying its contiguous row slice. -/
def gatherA (dims : List Nat) (w : List (List (List ℚ))) : Matrix :=
  stackRows ((dims.zip w).map (fun dw => sampleMat dw.1 dw.2)) (numSamples w)

/-- The first row of rank `p`'s partition inside the gathered matrix. -/
def rowOffset (dims : List Nat) (p : Nat) : Nat := (dims.take p).sum

/-- The row slice of `U` exposed by one process as its distributed spatial
basis partition. -/
def rowSlice (U : Matrix) (off n : Nat) : Matrix :=
  Matrix.ofEntries n U.d_num_cols true (fun i j => U.item (off + i) j)

/-- The `k × k` diagonal matrix holding the singular values. -/
def diagMat (S : List ℚ) : Matrix :=
  Matrix.ofEntries S.length S.length false
    (fun i j => if i = j then S.getD i 0 else 0)

/-- Modelled from the spec: the bodies of `StaticSVD::computeSVD` and
`StaticSVD::svd` are not among the available sources.  Per §4.3 the
collective gathers every rank's samples into the global matrix (the
caller obligation that all ranks participate in lockstep makes `dims` and
`w` the same on every rank), delegates to the external dense solver
(modelled as the function argument `solver`), then stores this process's
row slice of `U` as the distributed spatial basis, `Σ` and `Vᵗ` verbatim
and replicated, and sets the basis current (state CURRENT). -/
def StaticSVD.computeSVD (s : StaticSVD) (solver : Matrix → SvdSolution)
    (dims : List Nat) (w : List (List (List ℚ))) : StaticSVD :=
  let out := solver (gatherA dims w)
  { s with
    d_basis := some (rowSlice out.U (rowOffset dims s.d_rank) s.d_dim),
    d_S := some (diagMat out.S),
    d_V := some out.V,
    d_this_interval_basis_current := true }

/-- Modelled from the spec: `StaticSVD::getSpatialBasis`
(`@post thisIntervalBasisCurrent()`): recomputes the SVD when the basis is
stale, then returns the new state together with the read-only view of the
stored spatial basis. -/
def StaticSVD.getSpatialBasis (s : StaticSVD) (solver : Matrix → SvdSolution)
    (dims : List Nat) (w : List (List (List ℚ))) : StaticSVD × Option Matrix :=
  let t := if s.d_this_interval_basis_current then s
    else s.computeSVD solver dims w
  (t, t.d_basis)

/-- Modelled from the spec: `StaticSVD::getTemporalBasis`
(`@post thisIntervalBasisCurrent()`): recomputes the SVD when stale, then
returns the read-only view of the stored temporal basis `d_V`. -/
def StaticSVD.getTemporalBasis (s : StaticSVD) (solver : Matrix → SvdSolution)
    (dims : List Nat) (w : List (List (List ℚ))) : StaticSVD × Option Matrix :=
  let t := if s.d_this_interval_basis_current then s
    else s.computeSVD solver dims w
  (t, t.d_V)

/-- Modelled from the spec: `StaticSVD::getSingularValues`
(`@post thisIntervalBasisCurrent()`): recomputes the SVD when stale, then
returns the read-only view of the stored singular values `d_S`. -/
def StaticSVD.getSingularValues (s : StaticSVD) (solver : Matrix → SvdSolution)
    (dims : List Nat) (w : List (List (List ℚ))) : StaticSVD × Option Matrix :=
  let t := if s.d_this_interval_basis_current then s
    else s.computeSVD solver dims w
  (t, t.d_S)

/-- Entry `(r, c)` of the reconstruction `U · Σ · Vᵗ` from a solver
output. -/
def reconEntry (out : SvdSolution) (r c : Nat) : ℚ :=
  dotRange (fun j => out.U.item r j * out.S.getD j 0 * out.V.item j c)
    out.S.length

/-- A solver output is an exact factorization of `A` when `U · Σ · Vᵗ`
reproduces every entry of `A`. -/
abbrev isExactSVD (out : SvdSolution) (A : Matrix) : Prop :=
  ∀ r < A.d_num_rows, ∀ c < A.d_num_cols, reconEntry out r c = A.item r c

/-- Reading a mapped range at an in-bounds index. -/
lemma getD_map_range (f : Nat → ℚ) {n i : Nat} (h : i < n) :
    ((List.range n).map f).getD i 0 = f i := by
  rw [List.getD_eq_getElem?_getD, List.getElem?_map, List.getElem?_range h]
  rfl

/-- A valid row-major index is inside the storage. -/
lemma rowMajor_lt {r c rows cols : Nat} (hr : r < rows) (hc : c < cols) :
    r * cols + c < rows * cols := by
  calc r * cols + c < r * cols + cols := by omega
  _ = (r + 1) * cols := by ring
  _ ≤ rows * cols := Nat.mul_le_mul_right _ hr

/-- Row recovery from a row-major index. -/
lemma rowMajor_div {r c cols : Nat} (hc : c < cols) : (r * cols + c) / cols = r := by
  rw [Nat.mul_comm, Nat.mul_add_div (Nat.lt_of_le_of_lt (Nat.zero_le c) hc),
    Nat.div_eq_of_lt hc, Nat.add_zero]

/-- Column recovery from a row-major index. -/
lemma rowMajor_mod {r c cols : Nat} (hc : c < cols) : (r * cols + c) % cols = c := by
  rw [Nat.mul_comm, Nat.mul_add_mod, Nat.mod_eq_of_lt hc]

/-- Distinct valid positions have distinct row-major indices. -/
lemma rowMajor_inj {r c r' c' cols : Nat} (hc : c < cols) (hc' : c' < cols)
    (hne : ¬(r' = r ∧ c' = c)) : r' * cols + c' ≠ r * cols + c := by
  intro h
  have hr : r' = r := by
    have := congrArg (fun n => n / cols) h
    simpa [rowMajor_div hc, rowMajor_div hc'] using this
  have hcc : c' = c := by
    have := congrArg (fun n => n % cols) h
    simpa [rowMajor_mod hc, rowMajor_mod hc'] using this
  exact hne ⟨hr, hcc⟩

/-- `ofEntries` realises its entry function at every valid position. -/
lemma Matrix.item_ofEntries (rows cols : Nat) (dist : Bool) (f : Nat → Nat → ℚ)
    {r c : Nat} (hr : r < rows) (hc : c < cols) :
    (Matrix.ofEntries rows cols dist f).item r c = f r c := by
  unfold Matrix.ofEntries Matrix.item
  simp only
  rw [getD_map_range _ (rowMajor_lt hr hc), rowMajor_div hc, rowMajor_mod hc]

/-- Reading a concatenation inside the left block. -/
lemma getD_append_lt {α : Type} (l l' : List α) (d : α) (n : Nat)
    (h : n < l.length) : (l ++ l').getD n d = l.getD n d := by
  rw [List.getD_eq_getElem?_getD, List.getElem?_append_left h,
    ← List.getD_eq_getElem?_getD]

/-- Reading a concatenation inside the right block. -/
lemma getD_append_ge {α : Type} (l l' : List α) (d : α) (k : Nat) :
    (l ++ l').getD (l.length + k) d = l'.getD k d := by
  rw [List.getD_eq_getElem?_getD,
    List.getElem?_append_right (Nat.le_add_right _ _)]
  simp [List.getD_eq_getElem?_getD]

/-- Splitting the contraction loop at a block boundary. -/
lemma dotRange_add (f : Nat → ℚ) (a b : Nat) :
    dotRange f (a + b) = dotRange f a + dotRange (fun i => f (a + i)) b := by
  unfold dotRange
  rw [List.range_add, List.map_append, List.sum_append, List.map_map]
  rfl

/-- The contraction loop only reads `f` below its bound. -/
lemma dotRange_congr (f g : Nat → ℚ) (n : Nat) (h : ∀ i < n, f i = g i) :
    dotRange f n = dotRange g n := by
  unfold dotRange
  rw [List.map_congr_left]
  intro i hi
  exact h i (List.mem_range.mp hi)

/-- `ofEntries` satisfies the storage invariant. -/
lemma ofEntries_wf (rows cols : Nat) (dist : Bool) (f : Nat → Nat → ℚ) :
    (Matrix.ofEntries rows cols dist f).wf := by
  simp [Matrix.ofEntries, Matrix.wf]

/-- A stacked matrix agrees with its first block on the block's rows. -/
lemma stack_item_lt (A : Matrix) (J : List ℚ) (n cols i r : Nat)
    (hw : A.wf) (hcols : A.d_num_cols = cols) (hi : i < A.d_num_rows)
    (hr : r < cols) :
    (⟨n, cols, false, A.d_mat ++ J⟩ : Matrix).item i r = A.item i r := by
  unfold Matrix.item
  simp only
  rw [getD_append_lt]
  · rw [hcols]
  · rw [hw, hcols]
    exact rowMajor_lt hi hr

/-- A stacked matrix agrees with the remaining blocks past the first. -/
lemma stack_item_ge (A : Matrix) (J : List ℚ) (n n' cols i r : Nat)
    (hw : A.wf) (hcols : A.d_num_cols = cols) :
    (⟨n, cols, false, A.d_mat ++ J⟩ : Matrix).item (A.d_num_rows + i) r =
      (⟨n', cols, false, J⟩ : Matrix).item i r := by
  unfold Matrix.item
  simp only
  have hidx : (A.d_num_rows + i) * cols + r = A.d_mat.length + (i * cols + r) := by
    rw [hw, hcols]
    ring
  rw [hidx, getD_append_ge]

/-- Block decomposition of the transposed contraction: the contraction of
two stacked (globally gathered) matrices equals the sum of the per-process
local partial contractions. -/
lemma stackRows_contract (cA cB : Nat) (pairs : List (Matrix × Matrix))
    (r c : Nat) (hr : r < cA) (hc : c < cB)
    (h : ∀ p ∈ pairs, p.1.wf ∧ p.2.wf ∧ p.1.d_num_cols = cA ∧
      p.2.d_num_cols = cB ∧ p.1.d_num_rows = p.2.d_num_rows) :
    transposeMultEntry (stackRows (pairs.map Prod.fst) cA)
        (stackRows (pairs.map Prod.snd) cB) r c =
      (pairs.map (fun p => transposeMultEntry p.1 p.2 r c)).sum := by
  induction pairs with
  | nil => simp [stackRows, transposeMultEntry, dotRange]
  | cons p rest ih =>
    obtain ⟨hw1, hw2, hc1, hc2, hrr⟩ := h p (List.mem_cons_self p rest)
    have hrest := fun q hq => h q (List.mem_cons_of_mem p hq)
    have hstack1 : stackRows ((p :: rest).map Prod.fst) cA =
        ⟨p.1.d_num_rows + ((rest.map Prod.fst).map Matrix.d_num_rows).sum, cA,
          false, p.1.d_mat ++ ((rest.map Prod.fst).map Matrix.d_mat).flatten⟩ := by
      simp [stackRows]
    have hstack2 : stackRows ((p :: rest).map Prod.snd) cB =
        ⟨p.2.d_num_rows + ((rest.map Prod.snd).map Matrix.d_num_rows).sum, cB,
          false, p.2.d_mat ++ ((rest.map Prod.snd).map Matrix.d_mat).flatten⟩ := by
      simp [stackRows]
    rw [hstack1, hstack2]
    unfold transposeMultEntry
    simp only
    rw [dotRange_add, List.map_cons, List.sum_cons]
    have hpart1 :
        dotRange (fun i =>
          (⟨p.1.d_num_rows + ((rest.map Prod.fst).map Matrix.d_num_rows).sum, cA,
            false, p.1.d_mat ++ ((rest.map Prod.fst).map Matrix.d_mat).flatten⟩ : Matrix).item i r *
          (⟨p.2.d_num_rows + ((rest.map Prod.snd).map Matrix.d_num_rows).sum, cB,
            false, p.2.d_mat ++ ((rest.map Prod.snd).map Matrix.d_mat).flatten⟩ : Matrix).item i c)
          p.1.d_num_rows = transposeMultEntry p.1 p.2 r c := by
      unfold transposeMultEntry
      apply dotRange_congr
      intro i hi
      rw [stack_item_lt p.1 _ _ cA i r hw1 hc1 hi hr,
        stack_item_lt p.2 _ _ cB i c hw2 hc2 (by rw [← hrr]; exact hi) hc]
    have hpart2 :
        dotRange (fun i =>
          (⟨p.1.d_num_rows + ((rest.map Prod.fst).map Matrix.d_num_rows).sum, cA,
            false, p.1.d_mat ++ ((rest.map Prod.fst).map Matrix.d_mat).flatten⟩ : Matrix).item
              (p.1.d_num_rows + i) r *
          (⟨p.2.d_num_rows + ((rest.map Prod.snd).map Matrix.d_num_rows).sum, cB,
            false, p.2.d_mat ++ ((rest.map Prod.snd).map Matrix.d_mat).flatten⟩ : Matrix).item
              (p.1.d_num_rows + i) c)
          ((rest.map Prod.fst).map Matrix.d_num_rows).sum =
          (rest.map (fun q => transposeMultEntry q.1 q.2 r c)).sum := by
      rw [← ih hrest]
      unfold transposeMultEntry stackRows
      simp only
      apply dotRange_congr
      intro i hi
      rw [stack_item_ge p.1 _ _ (((rest.map Prod.fst).map Matrix.d_num_rows).sum) cA i r hw1 hc1,
        hrr, stack_item_ge p.2 _ _ (((rest.map Prod.snd).map Matrix.d_num_rows).sum) cB i c hw2 hc2]
    rw [hpart1, hpart2]
    rfl

/-- C10: writing through the mutable `item(r, c)` changes only the entry at
`(r, c)`: the dimensions and the distribution flag are unchanged, the
written value reads back exactly through the const `item(r, c)`, and every
other valid entry is unchanged. -/
theorem C10_item_write_frame (A : Matrix) (r c : Nat) (v : ℚ)
    (hwf : A.wf) (hr : r < A.numRows) (hc : c < A.numColumns) :
    (A.setItem r c v).numRows = A.numRows ∧
    (A.setItem r c v).numColumns = A.numColumns ∧
    (A.setItem r c v).distributed = A.distributed ∧
    (A.setItem r c v).item r c = v ∧
    ∀ r' c', r' < A.numRows → c' < A.numColumns → ¬(r' = r ∧ c' = c) →
      (A.setItem r c v).item r' c' = A.item r' c' := by
  refine ⟨rfl, rfl, rfl, ?_, ?_⟩
  · unfold Matrix.setItem Matrix.item
    simp only
    rw [List.getD_eq_getElem?_getD, List.getElem?_set_self]
    · rfl
    · rw [hwf]
      exact rowMajor_lt hr hc
  · intro r' c' hr' hc' hne
    have hc0 : c < A.d_num_cols := hc
    have hc0' : c' < A.d_num_cols := hc'
    unfold Matrix.setItem Matrix.item
    simp only
    rw [List.getD_eq_getElem?_getD,
      List.getElem?_set_ne (rowMajor_inj hc0 hc0' hne).symm,
      ← List.getD_eq_getElem?_getD]

/-- Evaluation of C10 at a concrete matrix: writing `(0,1)` of a 2×2 matrix
reads back and spares `(1, 0)`. -/
theorem C10_item_write_frame_witness :
    ((⟨2, 2, false, [1, 2, 3, 4]⟩ : Matrix).setItem 0 1 5).item 0 1 = 5 ∧
    ((⟨2, 2, false, [1, 2, 3, 4]⟩ : Matrix).setItem 0 1 5).item 1 0 =
      (⟨2, 2, false, [1, 2, 3, 4]⟩ : Matrix).item 1 0 := by
  have h := C10_item_write_frame ⟨2, 2, false, [1, 2, 3, 4]⟩ 0 1 5
    (by decide) (by decide) (by decide)
  exact ⟨h.2.2.2.1, h.2.2.2.2 1 0 (by decide) (by decide) (by decide)⟩

/-- C6: every `mult` / `transposeMult` overload hits its fatal
`CAROM_ASSERT` (modelled as `none`) whenever the operands' shapes or
distribution flags fall outside the §4.1 table, and the pointer overloads
also assert on a null argument. -/
theorem C6_dimension_mismatch_fatal (A B : Matrix) (v : Vector) :
    (¬(B.distributed = false ∧ A.numColumns = B.numRows) → A.mult B = none) ∧
    (¬(A.distributed = true ∧ v.distributed = false ∧ A.numColumns = v.dim) →
      A.multVec v = none) ∧
    (¬(A.distributed = B.distributed ∧ A.numRows = B.numRows) →
      A.transposeMult B = none) ∧
    (¬(A.distributed = true ∧ v.distributed = true ∧ A.numRows = v.dim) →
      A.transposeMultVec v = none) ∧
    (¬(B.distributed = false ∧ A.numColumns = B.numRows) →
      A.multPtr (some B) = none) ∧
    (¬(A.distributed = true ∧ v.distributed = false ∧ A.numColumns = v.dim) →
      A.multVecPtr (some v) = none) ∧
    (¬(A.distributed = B.distributed ∧ A.numRows = B.numRows) →
      A.transposeMultPtr (some B) = none) ∧
    (¬(A.distributed = true ∧ v.distributed = true ∧ A.numRows = v.dim) →
      A.transposeMultVecPtr (some v) = none) ∧
    A.multPtr none = none ∧
    A.multVecPtr none = none ∧
    A.transposeMultPtr none = none ∧
    A.transposeMultVecPtr none = none := by
  refine ⟨?_, ?_, ?_, ?_, ?_, ?_, ?_, ?_, rfl, rfl, rfl, rfl⟩
  · intro h
    exact if_neg h
  · intro h
    exact if_neg h
  · intro h
    exact if_neg h
  · intro h
    exact if_neg h
  · intro h
    unfold Matrix.multPtr
    exact if_neg h
  · intro h
    unfold Matrix.multVecPtr
    exact if_neg h
  · intro h
    unfold Matrix.transposeMultPtr
    exact if_neg h
  · intro h
    unfold Matrix.transposeMultVecPtr
    exact if_neg h

/-- Evaluation of C6 at concrete incompatible operands: an undistributed
2×3 matrix against a distributed 2×2 matrix and a distributed vector of
dimension 2 violate all eight preconditions. -/
theorem C6_dimension_mismatch_fatal_witness :
    (⟨2, 3, false, [0, 0, 0, 0, 0, 0]⟩ : Matrix).mult ⟨2, 2, true, [0, 0, 0, 0]⟩ = none ∧
    (⟨2, 3, false, [0, 0, 0, 0, 0, 0]⟩ : Matrix).multVec ⟨2, true, [0, 0]⟩ = none ∧
    (⟨2, 3, false, [0, 0, 0, 0, 0, 0]⟩ : Matrix).transposeMult ⟨2, 2, true, [0, 0, 0, 0]⟩ = none ∧
    (⟨2, 3, false, [0, 0, 0, 0, 0, 0]⟩ : Matrix).transposeMultVec ⟨2, true, [0, 0]⟩ = none ∧
    (⟨2, 3, false, [0, 0, 0, 0, 0, 0]⟩ : Matrix).multPtr (some ⟨2, 2, true, [0, 0, 0, 0]⟩) = none ∧
    (⟨2, 3, false, [0, 0, 0, 0, 0, 0]⟩ : Matrix).multVecPtr (some ⟨2, true, [0, 0]⟩) = none ∧
    (⟨2, 3, false, [0, 0, 0, 0, 0, 0]⟩ : Matrix).transposeMultPtr (some ⟨2, 2, true, [0, 0, 0, 0]⟩) = none ∧
    (⟨2, 3, false, [0, 0, 0, 0, 0, 0]⟩ : Matrix).transposeMultVecPtr (some ⟨2, true, [0, 0]⟩) = none ∧
    (⟨2, 3, false, [0, 0, 0, 0, 0, 0]⟩ : Matrix).multPtr none = none := by
  have h := C6_dimension_mismatch_fatal ⟨2, 3, false, [0, 0, 0, 0, 0, 0]⟩
    ⟨2, 2, true, [0, 0, 0, 0]⟩ ⟨2, true, [0, 0]⟩
  exact ⟨h.1 (by decide), h.2.1 (by decide), h.2.2.1 (by decide),
    h.2.2.2.1 (by decide), h.2.2.2.2.1 (by decide), h.2.2.2.2.2.1 (by decide),
    h.2.2.2.2.2.2.1 (by decide), h.2.2.2.2.2.2.2.1 (by decide),
    h.2.2.2.2.2.2.2.2.1⟩

/-- C9: on a non-null argument satisfying the shared preconditions, each
pointer overload of `mult` / `transposeMult` returns exactly the result of
the corresponding reference overload on the dereferenced argument. -/
theorem C9_pointer_overloads_delegate (A B : Matrix) (v : Vector) :
    (B.distributed = false → A.numColumns = B.numRows →
      A.multPtr (some B) = A.mult B) ∧
    (A.distributed = true → v.distributed = false → A.numColumns = v.dim →
      A.multVecPtr (some v) = A.multVec v) ∧
    (A.distributed = B.distributed → A.numRows = B.numRows →
      A.transposeMultPtr (some B) = A.transposeMult B) ∧
    (A.distributed = true → v.distributed = true → A.numRows = v.dim →
      A.transposeMultVecPtr (some v) = A.transposeMultVec v) := by
  refine ⟨?_, ?_, ?_, ?_⟩
  · intro h1 h2
    exact if_pos ⟨h1, h2⟩
  · intro h1 h2 h3
    exact if_pos ⟨h1, h2, h3⟩
  · intro h1 h2
    exact if_pos ⟨h1, h2⟩
  · intro h1 h2 h3
    exact if_pos ⟨h1, h2, h3⟩

/-- Evaluation of C9 at concrete compatible operands. -/
theorem C9_pointer_overloads_delegate_witness :
    (⟨2, 2, false, [1, 0, 0, 1]⟩ : Matrix).multPtr (some ⟨2, 2, false, [1, 2, 3, 4]⟩) =
      (⟨2, 2, false, [1, 0, 0, 1]⟩ : Matrix).mult ⟨2, 2, false, [1, 2, 3, 4]⟩ ∧
    (⟨2, 2, true, [1, 0, 0, 1]⟩ : Matrix).multVecPtr (some ⟨2, false, [1, 2]⟩) =
      (⟨2, 2, true, [1, 0, 0, 1]⟩ : Matrix).multVec ⟨2, false, [1, 2]⟩ ∧
    (⟨2, 2, false, [1, 0, 0, 1]⟩ : Matrix).transposeMultPtr (some ⟨2, 2, false, [1, 2, 3, 4]⟩) =
      (⟨2, 2, false, [1, 0, 0, 1]⟩ : Matrix).transposeMult ⟨2, 2, false, [1, 2, 3, 4]⟩ ∧
    (⟨2, 2, true, [1, 0, 0, 1]⟩ : Matrix).transposeMultVecPtr (some ⟨2, true, [1, 2]⟩) =
      (⟨2, 2, true, [1, 0, 0, 1]⟩ : Matrix).transposeMultVec ⟨2, true, [1, 2]⟩ := by
  refine ⟨?_, ?_, ?_, ?_⟩
  · exact (C9_pointer_overloads_delegate ⟨2, 2, false, [1, 0, 0, 1]⟩
      ⟨2, 2, false, [1, 2, 3, 4]⟩ ⟨2, false, [1, 2]⟩).1 (by decide) (by decide)
  · exact (C9_pointer_overloads_delegate ⟨2, 2, true, [1, 0, 0, 1]⟩
      ⟨2, 2, false, [1, 2, 3, 4]⟩ ⟨2, false, [1, 2]⟩).2.1 (by decide) (by decide) (by decide)
  · exact (C9_pointer_overloads_delegate ⟨2, 2, false, [1, 0, 0, 1]⟩
      ⟨2, 2, false, [1, 2, 3, 4]⟩ ⟨2, false, [1, 2]⟩).2.2.1 (by decide) (by decide)
  · exact (C9_pointer_overloads_delegate ⟨2, 2, true, [1, 0, 0, 1]⟩
      ⟨2, 2, false, [1, 2, 3, 4]⟩ ⟨2, true, [1, 2]⟩).2.2.2 (by decide) (by decide) (by decide)

/-- C7: for operands meeting the §4.1 preconditions, `mult(Matrix)` returns
a matrix carrying the left operand's distribution flag, of shape
`numRows(A) × numColumns(B)`, with entries `A · B`; `transposeMult(Matrix)`
returns an undistributed matrix of shape `numColumns(A) × numColumns(B)`
whose entries are the local contraction `Aᵗ · B` — the final result for
undistributed operands — and when both operands are distributed the
collectively summed result equals `Aᵗ · B` of the globally stacked
operands. -/
theorem C7_result_distribution (A B : Matrix) (cA cB : Nat)
    (pairs : List (Matrix × Matrix)) :
    (B.distributed = false → A.numColumns = B.numRows →
      ∃ C, A.mult B = some C ∧ C.distributed = A.distributed ∧
        C.numRows = A.numRows ∧ C.numColumns = B.numColumns ∧ C.wf ∧
        ∀ r < A.numRows, ∀ c < B.numColumns,
          C.item r c = dotRange (fun j => A.item r j * B.item j c) A.numColumns) ∧
    (A.distributed = B.distributed → A.numRows = B.numRows →
      ∃ C, A.transposeMult B = some C ∧ C.distributed = false ∧
        C.numRows = A.numColumns ∧ C.numColumns = B.numColumns ∧ C.wf ∧
        ∀ r < A.numColumns, ∀ c < B.numColumns,
          C.item r c = dotRange (fun i => A.item i r * B.item i c) A.numRows) ∧
    ((∀ p ∈ pairs, p.1.distributed = true ∧ p.2.distributed = true ∧
        p.1.wf ∧ p.2.wf ∧ p.1.numColumns = cA ∧ p.2.numColumns = cB ∧
        p.1.numRows = p.2.numRows) →
      (transposeMultSPMD cA cB pairs).distributed = false ∧
      (transposeMultSPMD cA cB pairs).numRows = cA ∧
      (transposeMultSPMD cA cB pairs).numColumns = cB ∧
      ∃ G, (stackRows (pairs.map Prod.fst) cA).transposeMult
             (stackRows (pairs.map Prod.snd) cB) = some G ∧
        ∀ r < cA, ∀ c < cB, (transposeMultSPMD cA cB pairs).item r c = G.item r c) := by
  refine ⟨?_, ?_, ?_⟩
  · intro hd hcr
    refine ⟨Matrix.ofEntries A.d_num_rows B.d_num_cols A.d_distributed (multEntry A B),
      ?_, rfl, rfl, rfl, ofEntries_wf _ _ _ _, ?_⟩
    · unfold Matrix.mult
      rw [if_pos ⟨hd, hcr⟩]
    · intro r hr c hc
      exact Matrix.item_ofEntries _ _ _ _ hr hc
  · intro hd hrr
    refine ⟨Matrix.ofEntries A.d_num_cols B.d_num_cols false (transposeMultEntry A B),
      ?_, rfl, rfl, rfl, ofEntries_wf _ _ _ _, ?_⟩
    · unfold Matrix.transposeMult
      rw [if_pos ⟨hd, hrr⟩]
    · intro r hr c hc
      exact Matrix.item_ofEntries _ _ _ _ hr hc
  · intro hp
    refine ⟨rfl, rfl, rfl, ?_⟩
    have hrows : ((pairs.map Prod.fst).map Matrix.d_num_rows).sum =
        ((pairs.map Prod.snd).map Matrix.d_num_rows).sum := by
      rw [List.map_map, List.map_map]
      have heq : ∀ p ∈ pairs,
          (Matrix.d_num_rows ∘ Prod.fst) p = (Matrix.d_num_rows ∘ Prod.snd) p := by
        intro p hpm
        exact (hp p hpm).2.2.2.2.2.2
      rw [List.map_congr_left heq]
    refine ⟨Matrix.ofEntries (stackRows (pairs.map Prod.fst) cA).d_num_cols
      (stackRows (pairs.map Prod.snd) cB).d_num_cols false
      (transposeMultEntry (stackRows (pairs.map Prod.fst) cA)
        (stackRows (pairs.map Prod.snd) cB)), ?_, ?_⟩
    · unfold Matrix.transposeMult
      rw [if_pos ⟨rfl, hrows⟩]
    · intro r hr c hc
      have h1 : (transposeMultSPMD cA cB pairs).item r c =
          (pairs.map (fun p => transposeMultEntry p.1 p.2 r c)).sum :=
        Matrix.item_ofEntries _ _ _ _ hr hc
      have h2 : (Matrix.ofEntries (stackRows (pairs.map Prod.fst) cA).d_num_cols
          (stackRows (pairs.map Prod.snd) cB).d_num_cols false
          (transposeMultEntry (stackRows (pairs.map Prod.fst) cA)
            (stackRows (pairs.map Prod.snd) cB))).item r c =
          transposeMultEntry (stackRows (pairs.map Prod.fst) cA)
            (stackRows (pairs.map Prod.snd) cB) r c :=
        Matrix.item_ofEntries _ _ _ _ hr hc
      rw [h1, h2]
      refine (stackRows_contract cA cB pairs r c hr hc ?_).symm
      intro p hpm
      obtain ⟨_, _, hw1, hw2, hcA, hcB, hnr⟩ := hp p hpm
      exact ⟨hw1, hw2, hcA, hcB, hnr⟩

/-- Evaluation of C7 at concrete operands: a distributed 2×2 times an
undistributed identity keeps the distributed flag; an undistributed
`transposeMult` result is undistributed; and for two single-row distributed
partitions the collectively summed `transposeMult` equals the product of
the stacked 2×1 global operands (`2·3 + 4·5 = 26`). -/
theorem C7_result_distribution_witness :
    ((⟨2, 2, true, [1, 2, 3, 4]⟩ : Matrix).mult ⟨2, 2, false, [1, 0, 0, 1]⟩).map
      Matrix.distributed = some true ∧
    ((⟨2, 2, false, [1, 2, 3, 4]⟩ : Matrix).transposeMult
      ⟨2, 2, false, [1, 0, 0, 1]⟩).map Matrix.distributed = some false ∧
    (transposeMultSPMD 1 1 [(⟨1, 1, true, [2]⟩, ⟨1, 1, true, [3]⟩),
      (⟨1, 1, true, [4]⟩, ⟨1, 1, true, [5]⟩)]).item 0 0 = 26 := by
  refine ⟨?_, ?_, ?_⟩
  · obtain ⟨C, hC, hdist, _⟩ := (C7_result_distribution ⟨2, 2, true, [1, 2, 3, 4]⟩
      ⟨2, 2, false, [1, 0, 0, 1]⟩ 1 1 []).1 (by decide) (by decide)
    rw [hC]
    exact congrArg some hdist
  · obtain ⟨C, hC, hdist, _⟩ := (C7_result_distribution ⟨2, 2, false, [1, 2, 3, 4]⟩
      ⟨2, 2, false, [1, 0, 0, 1]⟩ 1 1 []).2.1 (by decide) (by decide)
    rw [hC]
    exact congrArg some hdist
  · obtain ⟨_, _, _, G, hG, hitem⟩ := (C7_result_distribution
      ⟨2, 2, true, [1, 2, 3, 4]⟩ ⟨2, 2, false, [1, 0, 0, 1]⟩ 1 1
      [(⟨1, 1, true, [2]⟩, ⟨1, 1, true, [3]⟩),
       (⟨1, 1, true, [4]⟩, ⟨1, 1, true, [5]⟩)]).2.2 (by decide)
    have hcomp : (stackRows (([(⟨1, 1, true, [2]⟩, ⟨1, 1, true, [3]⟩),
        (⟨1, 1, true, [4]⟩, ⟨1, 1, true, [5]⟩)] :
          List (Matrix × Matrix)).map Prod.fst) 1).transposeMult
        (stackRows (([(⟨1, 1, true, [2]⟩, ⟨1, 1, true, [3]⟩),
        (⟨1, 1, true, [4]⟩, ⟨1, 1, true, [5]⟩)] :
          List (Matrix × Matrix)).map Prod.snd) 1) =
        some ⟨1, 1, false, [26]⟩ := by
      simp [Matrix.transposeMult, stackRows, Matrix.ofEntries, transposeMultEntry,
        dotRange, Matrix.item]
      norm_num [List.range_succ]
    rw [hcomp] at hG
    injection hG with hG2
    rw [hitem 0 (by decide) 0 (by decide), ← hG2]
    decide

/-- Writing one store slot leaves every other slot unchanged. -/
lemma getD_set_ne {α : Type} (l : List α) (d : α) (i j : Nat) (v : α)
    (hij : i ≠ j) : (l.set i v).getD j d = l.getD j d := by
  rw [List.getD_eq_getElem?_getD, List.getElem?_set_ne hij,
    ← List.getD_eq_getElem?_getD]

/-- Writing an existing store slot is read back. -/
lemma getD_set_self {α : Type} (l : List α) (d : α) (i : Nat) (v : α)
    (h : i < l.length) : (l.set i v).getD i d = v := by
  rw [List.getD_eq_getElem?_getD, List.getElem?_set_self h]
  rfl

/-- Appending to the store does not move existing slots. -/
lemma getD_append_singleton_lt {α : Type} (l : List α) (x d : α) (n : Nat)
    (h : n < l.length) : (l ++ [x]).getD n d = l.getD n d :=
  getD_append_lt l [x] d n h

/-- The appended slot holds the appended value. -/
lemma getD_append_singleton_self {α : Type} (l : List α) (x d : α) :
    (l ++ [x]).getD l.length d = x := by
  have h0 := getD_append_ge l [x] d 0
  rw [Nat.add_zero] at h0
  exact h0

/-- C8: copy construction and assignment deep-copy — afterwards the copy
holds the same dimensions, distribution flag and entries as the source,
and an item write through either instance leaves the other instance
entirely unchanged; and every public constructor yields a matrix with
positive dimensions (no dimensionless instance is constructible, matching
the private unimplemented default constructor of `Matrix.h`). -/
theorem C8_deep_copy_no_default (σ : MatrixStore) (h : Nat)
    (hh : h < σ.length) (nr nc : Nat) (dist : Bool) (data : List ℚ) :
    (copyConstruct σ h).2.getD (copyConstruct σ h).1 mat0 = σ.getD h mat0 ∧
    (copyConstruct σ h).1 ≠ h ∧
    (copyConstruct σ h).2.getD h mat0 = σ.getD h mat0 ∧
    (∀ r c v, (writeItem (copyConstruct σ h).2 (copyConstruct σ h).1 r c v).getD
      h mat0 = σ.getD h mat0) ∧
    (∀ r c v, (writeItem (copyConstruct σ h).2 h r c v).getD
      (copyConstruct σ h).1 mat0 = σ.getD h mat0) ∧
    (∀ dst src : Nat, dst < σ.length → src < σ.length → dst ≠ src →
      (assign σ dst src).getD dst mat0 = σ.getD src mat0 ∧
      (∀ r c v, (writeItem (assign σ dst src) dst r c v).getD src mat0 =
        σ.getD src mat0) ∧
      (∀ r c v, (writeItem (assign σ dst src) src r c v).getD dst mat0 =
        σ.getD src mat0)) ∧
    (∀ M, Matrix.make nr nc dist = some M → 0 < M.numRows ∧ 0 < M.numColumns) ∧
    (∀ M, Matrix.makeFrom (some data) nr nc dist = some M →
      0 < M.numRows ∧ 0 < M.numColumns) ∧
    Matrix.makeFrom none nr nc dist = none := by
  have hcopy1 : (copyConstruct σ h).2.getD (copyConstruct σ h).1 mat0 =
      σ.getD h mat0 := getD_append_singleton_self σ (σ.getD h mat0) mat0
  have hcopy2 : (copyConstruct σ h).2.getD h mat0 = σ.getD h mat0 :=
    getD_append_singleton_lt σ (σ.getD h mat0) mat0 h hh
  refine ⟨hcopy1, Nat.ne_of_gt hh, hcopy2, ?_, ?_, ?_, ?_, ?_, rfl⟩
  · intro r c v
    rw [writeItem, getD_set_ne _ _ _ _ _
      (show (copyConstruct σ h).1 ≠ h from Nat.ne_of_gt hh)]
    exact hcopy2
  · intro r c v
    rw [writeItem, getD_set_ne _ _ _ _ _
      (show h ≠ (copyConstruct σ h).1 from Nat.ne_of_lt hh)]
    exact hcopy1
  · intro dst src hdst hsrc hne
    have hasn : (assign σ dst src).getD dst mat0 = σ.getD src mat0 :=
      getD_set_self σ mat0 dst (σ.getD src mat0) hdst
    have hother : (assign σ dst src).getD src mat0 = σ.getD src mat0 :=
      getD_set_ne σ mat0 dst src (σ.getD src mat0) hne
    refine ⟨hasn, ?_, ?_⟩
    · intro r c v
      rw [writeItem, getD_set_ne _ _ _ _ _ hne]
      exact hother
    · intro r c v
      rw [writeItem, getD_set_ne _ _ _ _ _ (Ne.symm hne)]
      exact hasn
  · intro M hM
    unfold Matrix.make at hM
    by_cases hpos : 0 < nr ∧ 0 < nc
    · rw [if_pos hpos] at hM
      injection hM with hM2
      rw [← hM2]
      exact ⟨hpos.1, hpos.2⟩
    · rw [if_neg hpos] at hM
      exact Option.noConfusion hM
  · intro M hM
    unfold Matrix.makeFrom at hM
    simp only at hM
    by_cases hpos : 0 < nr ∧ 0 < nc
    · rw [if_pos hpos] at hM
      injection hM with hM2
      rw [← hM2]
      exact ⟨hpos.1, hpos.2⟩
    · rw [if_neg hpos] at hM
      exact Option.noConfusion hM

/-- Evaluation of C8 at a concrete two-slot store: copy slot 0, write `5`
into entry `(0,0)` of the copy, and observe the original still holds
`7`. -/
theorem C8_deep_copy_no_default_witness :
    (copyConstruct [⟨1, 1, false, [7]⟩, ⟨1, 1, true, [9]⟩] 0).2.getD
      (copyConstruct [⟨1, 1, false, [7]⟩, ⟨1, 1, true, [9]⟩] 0).1 mat0 =
      ⟨1, 1, false, [7]⟩ ∧
    (writeItem (copyConstruct [⟨1, 1, false, [7]⟩, ⟨1, 1, true, [9]⟩] 0).2
      (copyConstruct [⟨1, 1, false, [7]⟩, ⟨1, 1, true, [9]⟩] 0).1 0 0 5).getD 0 mat0 =
      ⟨1, 1, false, [7]⟩ ∧
    Matrix.makeFrom none 2 3 false = none := by
  have hthm := C8_deep_copy_no_default [⟨1, 1, false, [7]⟩, ⟨1, 1, true, [9]⟩] 0
    (by decide) 2 3 false []
  refine ⟨?_, ?_, hthm.2.2.2.2.2.2.2.2⟩
  · rw [hthm.1]
    decide
  · rw [hthm.2.2.2.1 0 0 5]
    decide

/-- C1: for a `StaticSVD` constructed with positive `dim` and
`samples_per_time_interval`, a `takeSample` call with non-null `u_in` and
nonnegative `time` returns false leaving the stored sample sequence and
the staleness flag unchanged when the accumulated count has reached
`samples_per_time_interval`, and otherwise appends `u_in` to the sample
set and returns true. -/
theorem C1_takeSample_capacity (s : StaticSVD) (u : List ℚ) (time : ℚ)
    (aw : Bool) (hdim : 0 < s.d_dim)
    (hspti : 0 < s.d_samples_per_time_interval) (htime : 0 ≤ time) :
    (s.d_samples_per_time_interval ≤ s.d_samples.length →
      s.takeSample (some u) time aw = some (false, s)) ∧
    (s.d_samples.length < s.d_samples_per_time_interval →
      s.takeSample (some u) time aw = some (true,
        { s with d_this_interval_basis_current := false, d_samples := s.d_samples ++ [u] })) := by
  constructor
  · intro hcap
    simp only [StaticSVD.takeSample]
    rw [if_neg (not_lt.2 htime), if_pos hcap]
  · intro hlt
    simp only [StaticSVD.takeSample]
    rw [if_neg (not_lt.2 htime), if_neg (not_le.2 hlt)]

/-- Evaluation of C1: a full one-slot instance rejects the next sample
unchanged; an empty one accepts and appends it. -/
theorem C1_takeSample_capacity_witness :
    (⟨1, 1, [[2]], none, none, none, true, 0, 1⟩ : StaticSVD).takeSample
      (some [3]) 0 false =
      some (false, ⟨1, 1, [[2]], none, none, none, true, 0, 1⟩) ∧
    (⟨1, 1, [], none, none, none, false, 0, 1⟩ : StaticSVD).takeSample
      (some [3]) 0 false =
      some (true, ⟨1, 1, [[3]], none, none, none, false, 0, 1⟩) := by
  constructor
  · exact (C1_takeSample_capacity ⟨1, 1, [[2]], none, none, none, true, 0, 1⟩
      [3] 0 false (by decide) (by decide) (by decide)).1 (by decide)
  · rw [(C1_takeSample_capacity ⟨1, 1, [], none, none, none, false, 0, 1⟩
      [3] 0 false (by decide) (by decide) (by decide)).2 (by decide)]
    rfl

/-- C2: the staleness state machine has exactly the two states STALE and
CURRENT: the constructed state is STALE; every accepted `takeSample` ends
STALE (also from CURRENT); a rejected `takeSample` leaves the state
untouched; `computeSVD` ends CURRENT; and the three accessors change the
state only by running `computeSVD` when it was STALE. -/
theorem C2_staleness_state_machine (dim spti rank np : Nat) (dbg : Bool)
    (s s' : StaticSVD) (u : List ℚ) (time : ℚ) (aw : Bool)
    (solver : Matrix → SvdSolution) (dims : List Nat)
    (w : List (List (List ℚ))) :
    (∀ t, mkStaticSVD dim spti dbg rank np = some t →
      t.thisIntervalBasisCurrent = false) ∧
    (s.takeSample (some u) time aw = some (true, s') →
      s'.thisIntervalBasisCurrent = false) ∧
    (s.takeSample (some u) time aw = some (false, s') → s' = s) ∧
    (s.computeSVD solver dims w).thisIntervalBasisCurrent = true ∧
    (s.getSpatialBasis solver dims w).1 =
      (if s.thisIntervalBasisCurrent then s else s.computeSVD solver dims w) ∧
    (s.getTemporalBasis solver dims w).1 =
      (if s.thisIntervalBasisCurrent then s else s.computeSVD solver dims w) ∧
    (s.getSingularValues solver dims w).1 =
      (if s.thisIntervalBasisCurrent then s else s.computeSVD solver dims w) := by
  refine ⟨?_, ?_, ?_, rfl, rfl, rfl, rfl⟩
  · intro t ht
    unfold mkStaticSVD at ht
    by_cases hpos : 0 < dim ∧ 0 < spti
    · rw [if_pos hpos] at ht
      injection ht with ht2
      rw [← ht2]
      rfl
    · rw [if_neg hpos] at ht
      exact Option.noConfusion ht
  · intro hacc
    simp only [StaticSVD.takeSample] at hacc
    by_cases hti : time < 0
    · rw [if_pos hti] at hacc
      exact Option.noConfusion hacc
    · rw [if_neg hti] at hacc
      by_cases hcap : s.d_samples_per_time_interval ≤ s.d_samples.length
      · rw [if_pos hcap] at hacc
        injection hacc with h2
        injection h2 with hfst hsnd
        exact Bool.noConfusion hfst
      · rw [if_neg hcap] at hacc
        injection hacc with h2
        injection h2 with hfst hsnd
        rw [← hsnd]
        rfl
  · intro hrej
    simp only [StaticSVD.takeSample] at hrej
    by_cases hti : time < 0
    · rw [if_pos hti] at hrej
      exact Option.noConfusion hrej
    · rw [if_neg hti] at hrej
      by_cases hcap : s.d_samples_per_time_interval ≤ s.d_samples.length
      · rw [if_pos hcap] at hrej
        injection hrej with h2
        injection h2 with hfst hsnd
        exact hsnd.symm
      · rw [if_neg hcap] at hrej
        injection hrej with h2
        injection h2 with hfst hsnd
        exact Bool.noConfusion hfst

/-- Evaluation of C2: the constructed state is STALE; an accepted sample
taken from a CURRENT state returns it to STALE; a rejected sample leaves
the state unchanged. -/
theorem C2_staleness_state_machine_witness :
    (∀ t, mkStaticSVD 2 3 false 0 1 = some t →
      t.thisIntervalBasisCurrent = false) ∧
    (∀ s', (⟨1, 2, [[2]], none, none, none, true, 0, 1⟩ : StaticSVD).takeSample
        (some [3]) 1 false = some (true, s') →
      s'.thisIntervalBasisCurrent = false) ∧
    (∀ s', (⟨1, 1, [[2]], none, none, none, true, 0, 1⟩ : StaticSVD).takeSample
        (some [3]) 1 false = some (false, s') →
      s' = ⟨1, 1, [[2]], none, none, none, true, 0, 1⟩) ∧
    ((⟨1, 1, [[2]], none, none, none, false, 0, 1⟩ : StaticSVD).computeSVD
      (fun A => ⟨A, [], A⟩) [1] [[[2]]]).thisIntervalBasisCurrent = true := by
  refine ⟨?_, ?_, ?_, ?_⟩
  · intro t ht
    exact (C2_staleness_state_machine 2 3 0 1 false
      ⟨1, 1, [], none, none, none, false, 0, 1⟩
      ⟨1, 1, [], none, none, none, false, 0, 1⟩ [] 0 false
      (fun A => ⟨A, [], A⟩) [] []).1 t ht
  · intro s' hs
    exact (C2_staleness_state_machine 2 3 0 1 false
      ⟨1, 2, [[2]], none, none, none, true, 0, 1⟩ s' [3] 1 false
      (fun A => ⟨A, [], A⟩) [] []).2.1 hs
  · intro s' hs
    exact (C2_staleness_state_machine 2 3 0 1 false
      ⟨1, 1, [[2]], none, none, none, true, 0, 1⟩ s' [3] 1 false
      (fun A => ⟨A, [], A⟩) [] []).2.2.1 hs
  · exact (C2_staleness_state_machine 2 3 0 1 false
      ⟨1, 1, [[2]], none, none, none, false, 0, 1⟩
      ⟨1, 1, [], none, none, none, false, 0, 1⟩ [] 0 false
      (fun A => ⟨A, [], A⟩) [1] [[[2]]]).2.2.2.1

/-- C3: each of the three accessors establishes the CURRENT state as a
postcondition, running `computeSVD` exactly when the state was STALE, and
returns the read-only view of the corresponding stored matrix
(`d_basis` / `d_V` / `d_S`) of the post-call state. -/
theorem C3_getters_ensure_current (s : StaticSVD)
    (solver : Matrix → SvdSolution) (dims : List Nat)
    (w : List (List (List ℚ))) :
    ((s.getSpatialBasis solver dims w).1.thisIntervalBasisCurrent = true ∧
     (s.getSpatialBasis solver dims w).1 =
       (if s.thisIntervalBasisCurrent then s else s.computeSVD solver dims w) ∧
     (s.getSpatialBasis solver dims w).2 =
       (s.getSpatialBasis solver dims w).1.d_basis) ∧
    ((s.getTemporalBasis solver dims w).1.thisIntervalBasisCurrent = true ∧
     (s.getTemporalBasis solver dims w).1 =
       (if s.thisIntervalBasisCurrent then s else s.computeSVD solver dims w) ∧
     (s.getTemporalBasis solver dims w).2 =
       (s.getTemporalBasis solver dims w).1.d_V) ∧
    ((s.getSingularValues solver dims w).1.thisIntervalBasisCurrent = true ∧
     (s.getSingularValues solver dims w).1 =
       (if s.thisIntervalBasisCurrent then s else s.computeSVD solver dims w) ∧
     (s.getSingularValues solver dims w).2 =
       (s.getSingularValues solver dims w).1.d_S) := by
  cases hb : s.d_this_interval_basis_current
  · refine ⟨⟨?_, ?_, rfl⟩, ⟨?_, ?_, rfl⟩, ⟨?_, ?_, rfl⟩⟩ <;>
      simp [StaticSVD.getSpatialBasis, StaticSVD.getTemporalBasis,
        StaticSVD.getSingularValues, StaticSVD.thisIntervalBasisCurrent,
        StaticSVD.computeSVD, hb]
  · refine ⟨⟨?_, ?_, rfl⟩, ⟨?_, ?_, rfl⟩, ⟨?_, ?_, rfl⟩⟩ <;>
      simp [StaticSVD.getSpatialBasis, StaticSVD.getTemporalBasis,
        StaticSVD.getSingularValues, StaticSVD.thisIntervalBasisCurrent, hb]

/-- C4: under the §4.3 solver contract at the gathered
`total_dim × num_samples` matrix with `k = min(total_dim, num_samples)`:
`U` is `total_dim × k`; the singular values form a length-`k` diagonal
ordered descending; `Vᵗ` is `k × num_samples` and is stored identically on
every process; and each process exposes as spatial basis exactly the row
slice of `U` for its own `dim`-row partition. -/
theorem C4_svd_output_shapes (s : StaticSVD) (solver : Matrix → SvdSolution)
    (dims : List Nat) (w : List (List (List ℚ)))
    (hshape : solverShapeOK (solver (gatherA dims w)) dims.sum (numSamples w)) :
    (solver (gatherA dims w)).U.numRows = dims.sum ∧
    (solver (gatherA dims w)).U.numColumns = min dims.sum (numSamples w) ∧
    (solver (gatherA dims w)).S.length = min dims.sum (numSamples w) ∧
    (solver (gatherA dims w)).S.Pairwise (· ≥ ·) ∧
    (s.computeSVD solver dims w).d_S = some (diagMat (solver (gatherA dims w)).S) ∧
    (diagMat (solver (gatherA dims w)).S).numRows = min dims.sum (numSamples w) ∧
    (diagMat (solver (gatherA dims w)).S).numColumns = min dims.sum (numSamples w) ∧
    (∀ i j, i < min dims.sum (numSamples w) → j < min dims.sum (numSamples w) →
      i ≠ j → (diagMat (solver (gatherA dims w)).S).item i j = 0) ∧
    (∀ i, i < min dims.sum (numSamples w) →
      (diagMat (solver (gatherA dims w)).S).item i i =
        (solver (gatherA dims w)).S.getD i 0) ∧
    (solver (gatherA dims w)).V.numRows = min dims.sum (numSamples w) ∧
    (solver (gatherA dims w)).V.numColumns = numSamples w ∧
    (s.computeSVD solver dims w).d_V = some (solver (gatherA dims w)).V ∧
    (∀ s2 : StaticSVD,
      (s2.computeSVD solver dims w).d_V = (s.computeSVD solver dims w).d_V) ∧
    (s.computeSVD solver dims w).d_basis =
      some (rowSlice (solver (gatherA dims w)).U (rowOffset dims s.d_rank) s.d_dim) ∧
    (rowSlice (solver (gatherA dims w)).U (rowOffset dims s.d_rank) s.d_dim).distributed = true ∧
    (rowSlice (solver (gatherA dims w)).U (rowOffset dims s.d_rank) s.d_dim).numRows = s.d_dim ∧
    (rowSlice (solver (gatherA dims w)).U (rowOffset dims s.d_rank) s.d_dim).numColumns =
      min dims.sum (numSamples w) ∧
    (∀ i j, i < s.d_dim → j < min dims.sum (numSamples w) →
      (rowSlice (solver (gatherA dims w)).U (rowOffset dims s.d_rank) s.d_dim).item i j =
        (solver (gatherA dims w)).U.item (rowOffset dims s.d_rank + i) j) := by
  obtain ⟨hU1, hU2, hU3, hS1, hS2, hV1, hV2, hV3⟩ := hshape
  refine ⟨hU1, hU2, hS1, hS2, rfl, hS1, hS1, ?_, ?_, hV1, hV2, rfl,
    fun s2 => rfl, rfl, rfl, rfl, hU2, ?_⟩
  · intro i j hi hj hne
    have hi' : i < (solver (gatherA dims w)).S.length := by
      rw [hS1]
      exact hi
    have hj' : j < (solver (gatherA dims w)).S.length := by
      rw [hS1]
      exact hj
    calc (diagMat (solver (gatherA dims w)).S).item i j
        = (if i = j then (solver (gatherA dims w)).S.getD i 0 else 0) :=
          Matrix.item_ofEntries _ _ _ _ hi' hj'
      _ = 0 := if_neg hne
  · intro i hi
    have hi' : i < (solver (gatherA dims w)).S.length := by
      rw [hS1]
      exact hi
    calc (diagMat (solver (gatherA dims w)).S).item i i
        = (if i = i then (solver (gatherA dims w)).S.getD i 0 else 0) :=
          Matrix.item_ofEntries _ _ _ _ hi' hi'
      _ = (solver (gatherA dims w)).S.getD i 0 := if_pos rfl
  · intro i j hi hj
    have hj' : j < (solver (gatherA dims w)).U.d_num_cols := by
      rw [hU2]
      exact hj
    exact Matrix.item_ofEntries _ _ _ _ hi hj'

/-- Evaluation of C4 in the two-process scenario of §8 (scenario B):
`dims = [2, 2]`, one sample per rank, `k = 1`; the rank-1 process's stored
`d_V` equals the rank-0 process's, and its exposed spatial-basis partition
has 2 rows whose entry `(0,0)` is row 2 of `U`. -/
theorem C4_svd_output_shapes_witness :
    ((⟨2, 2, [[0, 0]], none, none, none, false, 1, 2⟩ : StaticSVD).computeSVD
      (fun A => ⟨⟨4, 1, false, [1, 0, 0, 0]⟩, [1], ⟨1, 1, false, [1]⟩⟩)
      [2, 2] [[[1, 0]], [[0, 0]]]).d_V =
      ((⟨2, 2, [[1, 0]], none, none, none, false, 0, 2⟩ : StaticSVD).computeSVD
      (fun A => ⟨⟨4, 1, false, [1, 0, 0, 0]⟩, [1], ⟨1, 1, false, [1]⟩⟩)
      [2, 2] [[[1, 0]], [[0, 0]]]).d_V ∧
    (rowSlice ((fun (A : Matrix) =>
        (⟨⟨4, 1, false, [1, 0, 0, 0]⟩, [1], ⟨1, 1, false, [1]⟩⟩ : SvdSolution))
        (gatherA [2, 2] [[[1, 0]], [[0, 0]]])).U
      (rowOffset [2, 2] 1) 2).numRows = 2 ∧
    (rowSlice ((fun (A : Matrix) =>
        (⟨⟨4, 1, false, [1, 0, 0, 0]⟩, [1], ⟨1, 1, false, [1]⟩⟩ : SvdSolution))
        (gatherA [2, 2] [[[1, 0]], [[0, 0]]])).U
      (rowOffset [2, 2] 1) 2).item 0 0 = 0 := by
  have h := C4_svd_output_shapes
    ⟨2, 2, [[0, 0]], none, none, none, false, 1, 2⟩
    (fun A => ⟨⟨4, 1, false, [1, 0, 0, 0]⟩, [1], ⟨1, 1, false, [1]⟩⟩)
    [2, 2] [[[1, 0]], [[0, 0]]] (by decide)
  refine ⟨h.2.2.2.2.2.2.2.2.2.2.2.2.1
    ⟨2, 2, [[1, 0]], none, none, none, false, 0, 2⟩, h.2.2.2.2.2.2.2.2.2.2.2.2.2.2.2.1, ?_⟩
  rw [h.2.2.2.2.2.2.2.2.2.2.2.2.2.2.2.2.2 0 0 (by decide) (by decide)]
  decide

/-- The single-process gather is exactly the local sample matrix. -/
lemma gatherA_single (d : Nat) (ss : List (List ℚ)) (r c : Nat) :
    (gatherA [d] [ss]).item r c = (sampleMat d ss).item r c := by
  unfold gatherA stackRows Matrix.item
  simp [numSamples]
  rfl

/-- C5: for a single-process `StaticSVD`, a factorization that exactly
reconstructs the gathered matrix reconstructs the `dim × num_samples`
local sample matrix entry by entry — in exact rational arithmetic the
relative error is zero, so in particular within the 1e-10 relative
tolerance. -/
theorem C5_single_process_reconstruction (s : StaticSVD)
    (solver : Matrix → SvdSolution) (hsingle : s.d_num_procs = 1)
    (hrecon : isExactSVD (solver (gatherA [s.d_dim] [s.d_samples]))
      (gatherA [s.d_dim] [s.d_samples])) :
    ∀ r < s.d_dim, ∀ c < s.d_samples.length,
      reconEntry (solver (gatherA [s.d_dim] [s.d_samples])) r c =
        (sampleMat s.d_dim s.d_samples).item r c ∧
      |reconEntry (solver (gatherA [s.d_dim] [s.d_samples])) r c -
        (sampleMat s.d_dim s.d_samples).item r c| ≤
        1 / 10 ^ 10 * |(sampleMat s.d_dim s.d_samples).item r c| := by
  intro r hr c hc
  have h1 := hrecon r hr c hc
  rw [gatherA_single] at h1
  refine ⟨h1, ?_⟩
  rw [h1, sub_self, abs_zero]
  positivity

/-- Evaluation of C5 at the one-sample instance `A = [2]` with the exact
factorization `U = [1]`, `Σ = [2]`, `Vᵗ = [1]`. -/
theorem C5_single_process_reconstruction_witness :
    reconEntry ((fun (A : Matrix) =>
        (⟨⟨1, 1, false, [1]⟩, [2], ⟨1, 1, false, [1]⟩⟩ : SvdSolution))
      (gatherA [1] [[[2]]])) 0 0 = (sampleMat 1 [[2]]).item 0 0 := by
  have hrec : isExactSVD ((fun (A : Matrix) =>
      (⟨⟨1, 1, false, [1]⟩, [2], ⟨1, 1, false, [1]⟩⟩ : SvdSolution))
      (gatherA [1] [[[2]]])) (gatherA [1] [[[2]]]) := by
    intro r hr c hc
    have hr' : r < 1 := hr
    have hc' : c < 1 := hc
    have hr0 : r = 0 := by omega
    have hc0 : c = 0 := by omega
    subst hr0
    subst hc0
    simp [reconEntry, dotRange, gatherA, stackRows, sampleMat,
      Matrix.ofEntries, Matrix.item, numSamples, List.range_succ]
  exact ((C5_single_process_reconstruction
    ⟨1, 1, [[2]], none, none, none, false, 0, 1⟩
    (fun (A : Matrix) =>
      (⟨⟨1, 1, false, [1]⟩, [2], ⟨1, 1, false, [1]⟩⟩ : SvdSolution))
    rfl hrec) 0 (by decide) 0 (by decide)).1

end CAROM
